import Mathlib

/-!
Shallow embedding of the borrow/return transaction core of the
mzeevi/library repository (Go), used to settle the specification claims.

Conventions of the embedding:
* Go time.Time instants and time.Duration values are modelled as integer
  nanosecond counts, matching Go's nanosecond-resolution Duration.
* Go float64 fine arithmetic is modelled by exact rationals.
* The Mongo collections behind BookModel, PatronModel and TransactionModel
  are modelled as lists of records; FindOne is first-match lookup, UpdateOne
  rewrites the first record matching the filter, InsertOne appends.  Only
  the filter fields that the workflows under verification exercise
  (identity, the borrowed-transaction triple, and the version counter that
  every Update adds) are carried in the filter records.
* Each handler threads the store state explicitly; an error result carries
  no store, reflecting that the Go handlers abort the Mongo session
  transaction on any error, so no partial effect is visible.
-/

namespace Library

/-- Time instants and durations, in nanoseconds. -/
abbrev Time := Int

def nsPerSecond : Int := 1000000000

def nsPerHour : Int := 3600 * nsPerSecond

def nsPerDay : Int := 24 * nsPerHour

/-- Status enum of data.Transaction: "borrowed" or "returned". -/
inductive TransactionStatus where
  | borrowed
  | returned
deriving DecidableEq

/-- data.Book (internal/data/books.go). -/
structure Book where
  id : String
  pages : Int
  edition : Int
  copies : Int
  borrowedCopies : Int
  publishedAt : Time
  createdAt : Time
  updatedAt : Time
  title : String
  isbn : String
  authors : List String
  publishers : List String
  genres : List String
  version : Int
deriving DecidableEq

/-- data.PatronCategoryType: "teacher" or "student". -/
inductive PatronCategoryType where
  | teacher
  | student
deriving DecidableEq

/-- data.PatronCategory: closed variant (TeacherCategory / StudentCategory),
both carrying a discount percentage; both Discount implementations divide
the percentage by 100. -/
structure PatronCategory where
  categoryType : PatronCategoryType
  discountPercentage : Rat
deriving DecidableEq

def PatronCategory.Discount (c : PatronCategory) : Rat :=
  c.discountPercentage / 100

/-- data.Patron (document-store generation). -/
structure Patron where
  id : String
  name : String
  email : String
  createdAt : Time
  updatedAt : Time
  category : PatronCategory
  version : Int
deriving DecidableEq

/-- data.Transaction (internal/data/transactions.go). -/
structure Transaction where
  id : String
  patronID : String
  bookID : String
  borrowedAt : Time
  dueDate : Time
  returnedAt : Time
  status : TransactionStatus
  createdAt : Time
  updatedAt : Time
  version : Int
deriving DecidableEq

/-- An optional equality predicate: a nil filter field matches everything. -/
def matchOpt {α : Type} [DecidableEq α] : Option α → α → Bool
  | none, _ => true
  | some v, x => v == x

/-- The book-filter fields the workflows exercise (ID; Version is added by
BookModel.Update). -/
structure BookFilter where
  id : Option String
  version : Option Int
deriving DecidableEq

def BookFilter.matchesBook (f : BookFilter) (b : Book) : Bool :=
  matchOpt f.id b.id && matchOpt f.version b.version

/-- The patron-filter fields the workflows exercise. -/
structure PatronFilter where
  id : Option String
  version : Option Int
deriving DecidableEq

def PatronFilter.matchesPatron (f : PatronFilter) (p : Patron) : Bool :=
  matchOpt f.id p.id && matchOpt f.version p.version

/-- The transaction-filter fields the workflows exercise. -/
structure TransactionFilter where
  id : Option String
  patronID : Option String
  bookID : Option String
  status : Option TransactionStatus
  version : Option Int
deriving DecidableEq

def TransactionFilter.matchesTransaction (f : TransactionFilter) (t : Transaction) : Bool :=
  matchOpt f.id t.id && matchOpt f.patronID t.patronID && matchOpt f.bookID t.bookID &&
    matchOpt f.status t.status && matchOpt f.version t.version

/-- Mongo UpdateOne on a list model: rewrite the first record matching the
predicate; none means zero records matched. -/
def updateFirst {α : Type} (p : α → Bool) (f : α → α) : List α → Option (List α)
  | [] => none
  | x :: xs => if p x then some (f x :: xs) else (updateFirst p f xs).map (x :: ·)

/-- Errors surfaced by the store models and handlers. -/
inductive HandlerError where
  | bookNotFound
  | patronNotFound
  | transactionNotFound
  | editConflict
  | conflict
  | unprocessable
  | alreadyBorrowed
deriving DecidableEq

/-- The document-store fields of $set in buildBookUpdater, plus the $inc of
the version counter: every whitelisted field is overwritten from the
caller's record, updatedAt is refreshed, version is incremented; id and
createdAt are untouched. -/
def applyBookUpdate (now : Time) (book : Book) (stored : Book) : Book :=
  { stored with
      title := book.title, isbn := book.isbn, pages := book.pages,
      edition := book.edition, publishedAt := book.publishedAt,
      authors := book.authors, publishers := book.publishers,
      genres := book.genres, copies := book.copies,
      borrowedCopies := book.borrowedCopies,
      updatedAt := now, version := stored.version + 1 }

/-- buildTransactionUpdater: $set dueDate, returnedAt, status, updatedAt and
$inc version. -/
def applyTransactionUpdate (now : Time) (txn : Transaction) (stored : Transaction) : Transaction :=
  { stored with
      dueDate := txn.dueDate, returnedAt := txn.returnedAt,
      status := txn.status, updatedAt := now, version := stored.version + 1 }

/-- buildPatronUpdater: $set name, email, category, updatedAt and $inc
version. -/
def applyPatronUpdate (now : Time) (patron : Patron) (stored : Patron) : Patron :=
  { stored with
      name := patron.name, email := patron.email, category := patron.category,
      updatedAt := now, version := stored.version + 1 }

/-- BookModel.Get: FindOne on the filter. -/
def BookModel.get (filter : BookFilter) (books : List Book) : Option Book :=
  books.find? filter.matchesBook

/-- PatronModel.Get. -/
def PatronModel.get (filter : PatronFilter) (patrons : List Patron) : Option Patron :=
  patrons.find? filter.matchesPatron

/-- TransactionModel.Get. -/
def TransactionModel.get (filter : TransactionFilter) (txns : List Transaction) : Option Transaction :=
  txns.find? filter.matchesTransaction

/-- Shared UpdateOne wrapper: zero matched records yield ErrEditConflict,
otherwise the rewritten collection is returned. -/
def runUpdate {α : Type} (p : α → Bool) (f : α → α) (l : List α) :
    Except HandlerError (List α) :=
  match updateFirst p f l with
  | none => .error .editConflict
  | some l' => .ok l'

/-- BookModel.Update: the filter is strengthened with the caller record's
version; zero matched records yield ErrEditConflict. -/
def BookModel.update (now : Time) (filter : BookFilter) (book : Book)
    (books : List Book) : Except HandlerError (List Book) :=
  runUpdate ({ filter with version := some book.version }).matchesBook
    (applyBookUpdate now book) books

/-- PatronModel.Update. -/
def PatronModel.update (now : Time) (filter : PatronFilter) (patron : Patron)
    (patrons : List Patron) : Except HandlerError (List Patron) :=
  runUpdate ({ filter with version := some patron.version }).matchesPatron
    (applyPatronUpdate now patron) patrons

/-- TransactionModel.Update. -/
def TransactionModel.update (now : Time) (filter : TransactionFilter) (txn : Transaction)
    (txns : List Transaction) : Except HandlerError (List Transaction) :=
  runUpdate ({ filter with version := some txn.version }).matchesTransaction
    (applyTransactionUpdate now txn) txns

/-- The document store backing the three models, with the counter the
embedding uses for the object-ids Mongo assigns on insert. -/
structure Store where
  books : List Book
  patrons : List Patron
  transactions : List Transaction
  nextID : Nat
deriving DecidableEq

/-- TransactionModel.Insert: stamps createdAt and updatedAt with now,
stores the record under a fresh id, and returns the generated id.  As in
the Go code, the caller's in-memory record keeps its (empty) id; only the
stored document carries the generated one. -/
def TransactionModel.insert (now : Time) (txn : Transaction) (s : Store) :
    Store × Transaction × String :=
  let stamped := { txn with createdAt := now, updatedAt := now }
  let stored := { stamped with id := toString s.nextID }
  ({ s with transactions := s.transactions ++ [stored], nextID := s.nextID + 1 },
    stamped, stored.id)

/-- isBookUnavailable (api helpers): borrowing would exceed the stock. -/
def isBookUnavailable (book : Book) (requestedCopies : Int) : Bool :=
  book.borrowedCopies + requestedCopies > book.copies

/-- calculateFine (api helpers): time.Since(dueDate).Hours()/24, a
fractional day count, times the per-day rate when positive. -/
def calculateFine (now : Time) (transaction : Transaction) (overdueFine : Rat) : Rat :=
  let daysOverdue : Rat := ((now - transaction.dueDate : Int) : Rat) / ((nsPerDay : Int) : Rat)
  if daysOverdue > 0 then daysOverdue * overdueFine else 0

/-- validateDueDate (api): valid iff strictly after now plus one day and
strictly before now plus fourteen days.  The handler turns an invalid due
date into a client validation error before the workflow begins.  The two
time.Now() calls of the Go function are modelled by one instant. -/
def validateDueDate (now : Time) (t : Time) : Bool :=
  let oneDayFromNow := now + 24 * nsPerHour
  let twoWeeksFromNow := now + 14 * 24 * nsPerHour
  decide (oneDayFromNow < t) && decide (t < twoWeeksFromNow)

/-- daysBetween (internal/data/patrons.go): whole days between two
instants, rounded up; 0 when the end precedes the start. -/
def daysBetween (start finish : Time) : Int :=
  let duration := finish - start
  if duration < 0 then 0
  else ⌈((duration : Int) : Rat) / ((nsPerDay : Int) : Rat)⌉

/-- The bookDetails record of the legacy in-memory Patron. -/
structure LegacyBookDetails where
  isbn : String
  borrowDuration : Int
  borrowedAt : Time
deriving DecidableEq

/-- The legacy in-memory Patron (internal/data/patrons.go): borrowed books
keyed by title, and a category carrying the discount percentage. -/
structure LegacyPatron where
  id : Nat
  name : String
  createdAt : Time
  borrowedBooks : List (String × LegacyBookDetails)
  category : PatronCategory
deriving DecidableEq

/-- Patron.CalcFine (internal/data/patrons.go): sums, over the borrowed
books, the per-day rate times the rounded-up days past borrowedAt plus
borrowDuration, then multiplies the total by Category.Discount(). -/
def LegacyPatron.CalcFine (p : LegacyPatron) (overdueFine : Rat) (now : Time) : Rat :=
  let totalFine := p.borrowedBooks.foldl
    (fun acc item =>
      acc + overdueFine * ((daysBetween (item.2.borrowedAt + item.2.borrowDuration) now : Int) : Rat))
    0
  totalFine * p.category.Discount

/-- Input body of the borrow endpoint. -/
structure BorrowBookTransactionInput where
  patronID : String
  bookID : String
  dueDate : Time
  copies : Int
deriving DecidableEq

/-- Input body of the return endpoint. -/
structure ReturnBookTransactionInput where
  patronID : String
  bookID : String
  copies : Int
deriving DecidableEq

/-- Input of the update-transaction endpoint. -/
structure UpdateTransactionInput where
  id : String
  dueDate : Option Time
deriving DecidableEq

/-- borrowBookTransactionHandler (api): load book and patron, admission
check, insert the Borrowed transaction, bump the book's borrowed-copy
count through the optimistic update, all in one session transaction. -/
def borrowBookTransactionHandler (now : Time) (input : BorrowBookTransactionInput)
    (s : Store) : Except HandlerError (Store × Transaction) :=
  match BookModel.get { id := some input.bookID, version := none } s.books with
  | none => .error .bookNotFound
  | some book =>
    match PatronModel.get { id := some input.patronID, version := none } s.patrons with
    | none => .error .patronNotFound
    | some patron =>
      if isBookUnavailable book input.copies then .error .conflict
      else
        let transaction : Transaction :=
          { id := "", patronID := patron.id, bookID := book.id,
            borrowedAt := now, dueDate := input.dueDate, returnedAt := 0,
            status := .borrowed, createdAt := 0, updatedAt := 0, version := 0 }
        let inserted := TransactionModel.insert now transaction s
        let book' := { book with borrowedCopies := book.borrowedCopies + input.copies }
        match BookModel.update now { id := some book.id, version := none } book'
            inserted.1.books with
        | .error e => .error e
        | .ok books' => .ok ({ inserted.1 with books := books' }, inserted.2.1)

/-- returnBookTransactionHandler (api): load book and patron, find the
Borrowed transaction of the pair, flip it to Returned with returnedAt set,
then decrement the book's borrowed-copy count, all in one session
transaction. -/
def returnBookTransactionHandler (now : Time) (input : ReturnBookTransactionInput)
    (s : Store) : Except HandlerError Store :=
  match BookModel.get { id := some input.bookID, version := none } s.books with
  | none => .error .bookNotFound
  | some book =>
    match PatronModel.get { id := some input.patronID, version := none } s.patrons with
    | none => .error .patronNotFound
    | some patron =>
      match TransactionModel.get
          { id := none, patronID := some patron.id, bookID := some book.id,
            status := some .borrowed, version := none } s.transactions with
      | none => .error .transactionNotFound
      | some transaction =>
        let transaction' := { transaction with returnedAt := now, status := .returned }
        match TransactionModel.update now
            { id := some transaction.id, patronID := none, bookID := none,
              status := none, version := none } transaction' s.transactions with
        | .error e => .error e
        | .ok txns' =>
          let book' := { book with borrowedCopies := book.borrowedCopies - input.copies }
          match BookModel.update now { id := some book.id, version := none } book'
              s.books with
          | .error e => .error e
          | .ok books' => .ok { s with transactions := txns', books := books' }

/-- updateTransactionHandler (api): load the transaction; a due-date change
is refused once the status is Returned; otherwise the new due date is set
on the in-memory copy only and echoed back, with no store write at all. -/
def updateTransactionHandler (input : UpdateTransactionInput) (s : Store) :
    Except HandlerError (Store × Transaction) :=
  match TransactionModel.get
      { id := some input.id, patronID := none, bookID := none,
        status := none, version := none } s.transactions with
  | none => .error .transactionNotFound
  | some transaction =>
    match input.dueDate with
    | none => .ok (s, transaction)
    | some d =>
      if transaction.status = .returned then .error .unprocessable
      else .ok (s, { transaction with dueDate := d })

/-- borrowBook of the demo workflow (cmd): availability here means no
Borrowed-status transaction exists for the book at all; the book record is
not modified. -/
def borrowBook (now : Time) (bookID patronID : String) (dueDate : Time)
    (s : Store) : Except HandlerError Store :=
  match BookModel.get { id := some bookID, version := none } s.books with
  | none => .error .bookNotFound
  | some _ =>
    match PatronModel.get { id := some patronID, version := none } s.patrons with
    | none => .error .patronNotFound
    | some _ =>
      let available :=
        (TransactionModel.get
          { id := none, patronID := none, bookID := some bookID,
            status := some .borrowed, version := none } s.transactions).isNone
      if !available then .error .alreadyBorrowed
      else
        let transaction : Transaction :=
          { id := "", patronID := patronID, bookID := bookID,
            borrowedAt := now, dueDate := dueDate, returnedAt := 0,
            status := .borrowed, createdAt := 0, updatedAt := 0, version := 0 }
        .ok (TransactionModel.insert now transaction s).1

/-- Count of Borrowed-status transactions of one (patron, book) pair. -/
def countBorrowedPair (txns : List Transaction) (bookID patronID : String) : Nat :=
  txns.countP (fun t =>
    t.bookID == bookID && t.patronID == patronID && t.status == TransactionStatus.borrowed)

lemma updateFirst_eq_none_iff {α : Type} (p : α → Bool) (f : α → α) (l : List α) :
    updateFirst p f l = none ↔ ∀ x ∈ l, p x = false := by
  induction l with
  | nil => simp [updateFirst]
  | cons x xs ih =>
    by_cases hx : p x = true
    · simp [updateFirst, hx]
    · simp only [Bool.not_eq_true] at hx
      simp [updateFirst, hx, ih]

lemma updateFirst_eq_some_decomp {α : Type} {p : α → Bool} {f : α → α} {l l' : List α}
    (h : updateFirst p f l = some l') :
    ∃ l₁ b l₂, l = l₁ ++ b :: l₂ ∧ l' = l₁ ++ f b :: l₂ ∧ p b = true ∧
      ∀ x ∈ l₁, p x = false := by
  induction l generalizing l' with
  | nil => simp [updateFirst] at h
  | cons x xs ih =>
    by_cases hx : p x = true
    · simp only [updateFirst, hx, if_true, Option.some.injEq] at h
      exact ⟨[], x, xs, by simp, by simp [h.symm], hx, by simp⟩
    · simp only [Bool.not_eq_true] at hx
      simp only [updateFirst, hx, Bool.false_eq_true, if_false, Option.map_eq_some'] at h
      obtain ⟨ys, hys, hl'⟩ := h
      obtain ⟨l₁, b, l₂, hxs, hys', hb, hall⟩ := ih hys
      refine ⟨x :: l₁, b, l₂, by simp [hxs], by simp [hl'.symm, hys'], hb, ?_⟩
      intro y hy
      rcases List.mem_cons.mp hy with rfl | hy
      · exact hx
      · exact hall y hy

lemma updateFirst_append {α : Type} (p : α → Bool) (f : α → α) (l₁ : List α) (b : α)
    (l₂ : List α) (h₁ : ∀ x ∈ l₁, p x = false) (hb : p b = true) :
    updateFirst p f (l₁ ++ b :: l₂) = some (l₁ ++ f b :: l₂) := by
  induction l₁ with
  | nil => simp [updateFirst, hb]
  | cons x xs ih =>
    have hx : p x = false := h₁ x (by simp)
    simp only [List.cons_append, updateFirst, hx, Bool.false_eq_true, if_false,
      List.append_eq]
    rw [ih (fun y hy => h₁ y (by simp [hy]))]
    simp

lemma find?_append_cons {α : Type} (q : α → Bool) (l₁ : List α) (b : α) (l₂ : List α)
    (h₁ : ∀ x ∈ l₁, q x = false) (hb : q b = true) :
    (l₁ ++ b :: l₂).find? q = some b := by
  induction l₁ with
  | nil => simp [List.find?_cons, hb]
  | cons x xs ih =>
    have hx : q x = false := h₁ x (by simp)
    simp only [List.cons_append, List.find?_cons, hx]
    exact ih (fun y hy => h₁ y (by simp [hy]))

lemma find?_decomp {α : Type} {q : α → Bool} {l : List α} {b : α}
    (h : l.find? q = some b) :
    ∃ l₁ l₂, l = l₁ ++ b :: l₂ ∧ ∀ x ∈ l₁, q x = false := by
  induction l with
  | nil => simp at h
  | cons x xs ih =>
    by_cases hx : q x = true
    · rw [List.find?_cons_of_pos _ hx, Option.some.injEq] at h
      exact ⟨[], xs, by simp [h], by simp⟩
    · simp only [Bool.not_eq_true] at hx
      rw [List.find?_cons_of_neg _ (by simp [hx])] at h
      obtain ⟨l₁, l₂, hl, hall⟩ := ih h
      refine ⟨x :: l₁, l₂, by simp [hl], ?_⟩
      intro y hy
      rcases List.mem_cons.mp hy with rfl | hy
      · exact hx
      · exact hall y hy

/-- Sample book used by concrete witnesses: two copies, none borrowed. -/
def bookEx : Book :=
  { id := "b1", pages := 100, edition := 1, copies := 2, borrowedCopies := 0,
    publishedAt := 0, createdAt := 0, updatedAt := 0, title := "t",
    isbn := "isbn1", authors := [], publishers := [], genres := [], version := 0 }

/-- Sample patron used by concrete witnesses. -/
def patronEx : Patron :=
  { id := "p1", name := "n", email := "e", createdAt := 0, updatedAt := 0,
    category := { categoryType := .student, discountPercentage := 10 }, version := 0 }

/-- Sample store holding the sample book and patron. -/
def storeEx : Store :=
  { books := [bookEx], patrons := [patronEx], transactions := [], nextID := 0 }

/-- Sample borrowed transaction of the sample pair. -/
def txnEx : Transaction :=
  { id := "t1", patronID := "p1", bookID := "b1", borrowedAt := 0,
    dueDate := 7 * nsPerDay, returnedAt := 0, status := .borrowed,
    createdAt := 0, updatedAt := 0, version := 0 }

/-- Legacy patron holding one book whose borrow window ended at instant 0,
with a twenty percent category discount. -/
def legacyPatronEx : LegacyPatron :=
  { id := 1, name := "j", createdAt := 0,
    borrowedBooks := [("b", { isbn := "i", borrowDuration := 0, borrowedAt := 0 })],
    category := { categoryType := .teacher, discountPercentage := 20 } }

/-- C9: for every borrow request, the due-date validation rejects the
request exactly when the due date is not strictly after now plus one day
and strictly before now plus fourteen days; validateDueDate is the check
both the borrow and the update resolvers run before any mutation. -/
theorem C9_validateDueDate_rejects_iff (now t : Time) :
    validateDueDate now t = false ↔
      ¬(now + nsPerDay < t ∧ t < now + 14 * nsPerDay) := by
  simp only [validateDueDate, nsPerDay, nsPerHour, nsPerSecond, Bool.and_eq_false_iff,
    decide_eq_false_iff_not, not_and_or, not_lt]
  norm_num

/-- C10: a successful UpdateTransaction call leaves the store completely
unchanged, and the returned body carries the requested new due date: the
handler mutates only its in-memory copy and performs no persistence. -/
theorem C10_updateTransactionHandler_no_persistence
    (input : UpdateTransactionInput) (s s' : Store) (out : Transaction)
    (h : updateTransactionHandler input s = .ok (s', out)) :
    s' = s ∧ (∀ d, input.dueDate = some d → out.dueDate = d) := by
  unfold updateTransactionHandler at h
  split at h
  · cases h
  · rename_i txn hg
    split at h
    · rename_i hd
      simp only [Except.ok.injEq, Prod.mk.injEq] at h
      exact ⟨h.1.symm, fun d hdd => by rw [hd] at hdd; cases hdd⟩
    · rename_i d hd
      split at h
      · cases h
      · simp only [Except.ok.injEq, Prod.mk.injEq] at h
        obtain ⟨hs, hout⟩ := h
        refine ⟨hs.symm, fun d' hdd => ?_⟩
        rw [hd, Option.some.injEq] at hdd
        rw [← hout]
        exact hdd

/-- Witness for C10 at a concrete store: updating the due date of the
sample borrowed transaction succeeds, changes no stored data and echoes
the new due date. -/
theorem C10_witness :
    ∃ s' out,
      updateTransactionHandler { id := "t1", dueDate := some (8 * nsPerDay) }
        { storeEx with transactions := [txnEx] } = .ok (s', out) ∧
      s' = { storeEx with transactions := [txnEx] } ∧
      out.dueDate = 8 * nsPerDay := by
  refine ⟨{ storeEx with transactions := [txnEx] },
    { txnEx with dueDate := 8 * nsPerDay }, ?_, ?_, rfl⟩
  · rfl
  · exact (C10_updateTransactionHandler_no_persistence
      { id := "t1", dueDate := some (8 * nsPerDay) }
      { storeEx with transactions := [txnEx] }
      { storeEx with transactions := [txnEx] }
      { txnEx with dueDate := 8 * nsPerDay } rfl).1

/-- C4: on the legacy per-patron aggregation the code multiplies the
summed total by the discount fraction itself, not by one minus it: a
pre-discount total of 150 (ten days overdue at rate 15) with a twenty
percent discount returns 30, not the 120 the specification and the
repository's own TestCalcFine expectations require. -/
theorem C4_CalcFine_multiplies_by_discount :
    LegacyPatron.CalcFine legacyPatronEx 15 (10 * nsPerDay) = 30 ∧
      (30 : Rat) ≠ 120 := by
  constructor
  · show (0 + 15 * ((daysBetween (0 + 0) (10 * nsPerDay) : Int) : Rat)) * (20 / 100) = 30
    have hd : daysBetween (0 + 0) (10 * nsPerDay) = 10 := by
      simp only [daysBetween, nsPerDay, nsPerHour, nsPerSecond]
      norm_num
    rw [hd]
    norm_num
  · norm_num

/-- C5 counterexample: one second past due at rate 15, the API fine
calculator returns 15/86400, not the 1 * 15 the claim states: there is no
rounding-up to whole days in calculateFine. -/
theorem C5_calculateFine_one_second_counterexample :
    calculateFine nsPerSecond { txnEx with dueDate := 0 } 15 ≠ 1 * 15 ∧
      calculateFine nsPerSecond { txnEx with dueDate := 0 } 15 = 15 / 86400 := by
  constructor
  · simp only [calculateFine, nsPerSecond, nsPerDay, nsPerHour]
    norm_num
  · simp only [calculateFine, nsPerSecond, nsPerDay, nsPerHour]
    norm_num

/-- C5 amended: the API fine calculator uses the fractional day count
(now minus dueDate over 24h) with no ceiling: a transaction due exactly
now or in the future has fine 0, and one 1 second past due has the
positive fine rate/86400, strictly below one day's rate; only the legacy
daysBetween helper rounds a 1 second overhang up to a whole day. -/
theorem C5_calculateFine_fractional_spec :
    (∀ (now : Time) (txn : Transaction) (rate : Rat),
        now ≤ txn.dueDate → calculateFine now txn rate = 0) ∧
    (∀ (txn : Transaction) (rate : Rat), 0 < rate →
        calculateFine (txn.dueDate + nsPerSecond) txn rate = rate / 86400 ∧
        0 < calculateFine (txn.dueDate + nsPerSecond) txn rate ∧
        calculateFine (txn.dueDate + nsPerSecond) txn rate < rate) ∧
    (∀ start : Time, daysBetween start (start + nsPerSecond) = 1) := by
  refine ⟨?_, ?_, ?_⟩
  · intro now txn rate h
    simp only [calculateFine]
    rw [if_neg]
    simp only [not_lt]
    apply div_nonpos_of_nonpos_of_nonneg
    · exact_mod_cast Int.sub_nonpos_of_le h
    · norm_num [nsPerDay, nsPerHour, nsPerSecond]
  · intro txn rate hrate
    have hsub : (txn.dueDate + nsPerSecond - txn.dueDate : Int) = 1000000000 := by
      simp only [nsPerSecond]; rw [add_sub_cancel_left]
    have hfine : calculateFine (txn.dueDate + nsPerSecond) txn rate = rate / 86400 := by
      simp only [calculateFine, hsub, nsPerDay, nsPerHour, nsPerSecond]
      norm_num
      ring
    refine ⟨hfine, ?_, ?_⟩
    · rw [hfine]; positivity
    · rw [hfine]
      exact div_lt_self hrate (by norm_num)
  · intro start
    have hsub : (start + nsPerSecond - start : Int) = 1000000000 := by
      simp only [nsPerSecond]; rw [add_sub_cancel_left]
    simp only [daysBetween, hsub, nsPerDay, nsPerHour, nsPerSecond]
    norm_num
    rw [Int.ceil_eq_iff]
    norm_num

/-- Witness for C5 at concrete inputs: the due-exactly-now fine is 0 and
the one-second-overdue fine at rate 15 is 15/86400. -/
theorem C5_witness :
    calculateFine 0 txnEx 15 = 0 ∧
      calculateFine (txnEx.dueDate + nsPerSecond) txnEx 15 = 15 / 86400 :=
  ⟨C5_calculateFine_fractional_spec.1 0 txnEx 15 (by decide),
    (C5_calculateFine_fractional_spec.2.1 txnEx 15 (by norm_num)).1⟩

lemma runUpdate_conflict_iff {α : Type} (p : α → Bool) (f : α → α) (l : List α) :
    runUpdate p f l = .error .editConflict ↔ ∀ x ∈ l, p x = false := by
  unfold runUpdate
  cases h : updateFirst p f l with
  | none => simpa using (updateFirst_eq_none_iff p f l).mp h
  | some l' =>
    simp only [reduceCtorEq, false_iff]
    intro hall
    rw [(updateFirst_eq_none_iff p f l).mpr hall] at h
    cases h

lemma runUpdate_ok_decomp {α : Type} {p : α → Bool} {f : α → α} {l l' : List α}
    (h : runUpdate p f l = .ok l') :
    ∃ l₁ b l₂, l = l₁ ++ b :: l₂ ∧ l' = l₁ ++ f b :: l₂ ∧ p b = true ∧
      ∀ x ∈ l₁, p x = false := by
  unfold runUpdate at h
  cases hu : updateFirst p f l with
  | none => rw [hu] at h; cases h
  | some l'' =>
    rw [hu] at h
    obtain ⟨l₁, b, l₂, hl, hl', hb, hfail⟩ := updateFirst_eq_some_decomp hu
    injection h with h2
    exact ⟨l₁, b, l₂, hl, by rw [← h2, hl'], hb, hfail⟩

lemma runUpdate_append {α : Type} (p : α → Bool) (f : α → α) (l₁ : List α) (b : α)
    (l₂ : List α) (h₁ : ∀ x ∈ l₁, p x = false) (hb : p b = true) :
    runUpdate p f (l₁ ++ b :: l₂) = .ok (l₁ ++ f b :: l₂) := by
  unfold runUpdate
  rw [updateFirst_append p f l₁ b l₂ h₁ hb]

/-- C6: every entity Update (Transaction, Book, Patron) follows the
optimistic-concurrency contract: it returns EditConflict exactly when no
stored record matches the caller's filter together with the version the
caller read, leaving the collection unchanged; on success exactly one
stored record, the first match, is rewritten, its version incremented by
exactly 1 and its updatedAt stamped with now, while all other records are
untouched. -/
theorem C6_update_optimistic_concurrency :
    (∀ (now : Time) (filt : TransactionFilter) (txn : Transaction) (l : List Transaction),
      (TransactionModel.update now filt txn l = .error .editConflict ↔
        ∀ t ∈ l, ({ filt with version := some txn.version }).matchesTransaction t = false) ∧
      (∀ l', TransactionModel.update now filt txn l = .ok l' →
        ∃ l₁ stored l₂, l = l₁ ++ stored :: l₂ ∧
          ({ filt with version := some txn.version }).matchesTransaction stored = true ∧
          l' = l₁ ++ applyTransactionUpdate now txn stored :: l₂ ∧
          (applyTransactionUpdate now txn stored).version = stored.version + 1 ∧
          (applyTransactionUpdate now txn stored).updatedAt = now)) ∧
    (∀ (now : Time) (filt : BookFilter) (book : Book) (l : List Book),
      (BookModel.update now filt book l = .error .editConflict ↔
        ∀ b ∈ l, ({ filt with version := some book.version }).matchesBook b = false) ∧
      (∀ l', BookModel.update now filt book l = .ok l' →
        ∃ l₁ stored l₂, l = l₁ ++ stored :: l₂ ∧
          ({ filt with version := some book.version }).matchesBook stored = true ∧
          l' = l₁ ++ applyBookUpdate now book stored :: l₂ ∧
          (applyBookUpdate now book stored).version = stored.version + 1 ∧
          (applyBookUpdate now book stored).updatedAt = now)) ∧
    (∀ (now : Time) (filt : PatronFilter) (patron : Patron) (l : List Patron),
      (PatronModel.update now filt patron l = .error .editConflict ↔
        ∀ q ∈ l, ({ filt with version := some patron.version }).matchesPatron q = false) ∧
      (∀ l', PatronModel.update now filt patron l = .ok l' →
        ∃ l₁ stored l₂, l = l₁ ++ stored :: l₂ ∧
          ({ filt with version := some patron.version }).matchesPatron stored = true ∧
          l' = l₁ ++ applyPatronUpdate now patron stored :: l₂ ∧
          (applyPatronUpdate now patron stored).version = stored.version + 1 ∧
          (applyPatronUpdate now patron stored).updatedAt = now)) := by
  refine ⟨fun now filt txn l => ⟨runUpdate_conflict_iff _ _ _, fun l' h => ?_⟩,
    fun now filt book l => ⟨runUpdate_conflict_iff _ _ _, fun l' h => ?_⟩,
    fun now filt patron l => ⟨runUpdate_conflict_iff _ _ _, fun l' h => ?_⟩⟩
  · obtain ⟨l₁, b, l₂, hl, hl', hb, _⟩ := runUpdate_ok_decomp h
    exact ⟨l₁, b, l₂, hl, hb, hl', rfl, rfl⟩
  · obtain ⟨l₁, b, l₂, hl, hl', hb, _⟩ := runUpdate_ok_decomp h
    exact ⟨l₁, b, l₂, hl, hb, hl', rfl, rfl⟩
  · obtain ⟨l₁, b, l₂, hl, hl', hb, _⟩ := runUpdate_ok_decomp h
    exact ⟨l₁, b, l₂, hl, hb, hl', rfl, rfl⟩

/-- Filter selecting the sample transaction by id. -/
def txnIDFilterEx : TransactionFilter :=
  { id := some "t1", patronID := none, bookID := none, status := none, version := none }

/-- Witness for C6 at concrete inputs: updating the sample transaction
with a stale version yields EditConflict, and with the matching version
succeeds, bumping the stored version from 0 to 1. -/
theorem C6_witness :
    (TransactionModel.update 9 txnIDFilterEx { txnEx with version := 5 } [txnEx] =
      .error .editConflict) ∧
    (∃ l₁ stored l₂, ([txnEx] : List Transaction) = l₁ ++ stored :: l₂ ∧
      (applyTransactionUpdate 9 txnEx stored).version = stored.version + 1) := by
  constructor
  · exact (C6_update_optimistic_concurrency.1 9 txnIDFilterEx
      { txnEx with version := 5 } [txnEx]).1.mpr (by decide)
  · obtain ⟨l₁, stored, l₂, hl, _, _, hver, _⟩ :=
      (C6_update_optimistic_concurrency.1 9 txnIDFilterEx txnEx [txnEx]).2 _ rfl
    exact ⟨l₁, stored, l₂, hl, hver⟩

lemma matchesBook_id_iff {bookID : String} {b : Book} :
    BookFilter.matchesBook { id := some bookID, version := none } b = true ↔ b.id = bookID := by
  simp only [BookFilter.matchesBook, matchOpt, Bool.and_true, beq_iff_eq]
  exact eq_comm

lemma matchesBook_id_version_iff {bookID : String} {v : Int} {b : Book} :
    BookFilter.matchesBook { id := some bookID, version := some v } b = true ↔
      b.id = bookID ∧ b.version = v := by
  simp only [BookFilter.matchesBook, matchOpt, Bool.and_eq_true, beq_iff_eq]
  exact and_congr eq_comm eq_comm

lemma matchesPatron_id_iff {patronID : String} {p : Patron} :
    PatronFilter.matchesPatron { id := some patronID, version := none } p = true ↔
      p.id = patronID := by
  simp only [PatronFilter.matchesPatron, matchOpt, Bool.and_true, beq_iff_eq]
  exact eq_comm

lemma isBookUnavailable_iff {b : Book} {c : Int} :
    isBookUnavailable b c = true ↔ b.borrowedCopies + c > b.copies := by
  simp [isBookUnavailable]

/-- After a successful get of a book by id, an optimistic update through a
caller record carrying the same id and version always matches the fetched
record, rewrites exactly it, and the subsequent get by the same id returns
the rewritten record. -/
lemma book_get_update (now : Time) (book' : Book) {bookID : String} {books : List Book}
    {book : Book}
    (hfind : BookModel.get { id := some bookID, version := none } books = some book)
    (hver : book'.version = book.version) :
    ∃ l₁ l₂, books = l₁ ++ book :: l₂ ∧
      (∀ x ∈ l₁, BookFilter.matchesBook { id := some bookID, version := none } x = false) ∧
      BookModel.update now { id := some book.id, version := none } book' books =
        .ok (l₁ ++ applyBookUpdate now book' book :: l₂) ∧
      BookModel.get { id := some bookID, version := none }
          (l₁ ++ applyBookUpdate now book' book :: l₂) =
        some (applyBookUpdate now book' book) := by
  have hqbook : BookFilter.matchesBook { id := some bookID, version := none } book = true :=
    List.find?_some hfind
  have hbid : book.id = bookID := matchesBook_id_iff.mp hqbook
  obtain ⟨l₁, l₂, hl, hfail⟩ := find?_decomp hfind
  have hpfail : ∀ x ∈ l₁,
      BookFilter.matchesBook { id := some book.id, version := some book'.version } x = false := by
    intro x hx
    by_contra hpx
    rw [Bool.not_eq_false] at hpx
    have := (matchesBook_id_version_iff.mp hpx).1
    have : BookFilter.matchesBook { id := some bookID, version := none } x = true :=
      matchesBook_id_iff.mpr (by rw [this, hbid])
    rw [hfail x hx] at this
    cases this
  have hpbook : BookFilter.matchesBook
      { id := some book.id, version := some book'.version } book = true :=
    matchesBook_id_version_iff.mpr ⟨rfl, hver.symm⟩
  have hupd : BookModel.update now { id := some book.id, version := none } book' books =
      .ok (l₁ ++ applyBookUpdate now book' book :: l₂) := by
    show runUpdate _ _ books = _
    rw [hl]
    exact runUpdate_append _ _ l₁ book l₂ hpfail hpbook
  refine ⟨l₁, l₂, hl, hfail, hupd, ?_⟩
  show List.find? _ _ = _
  apply find?_append_cons _ _ _ _ hfail
  exact matchesBook_id_iff.mpr (by simp [applyBookUpdate, hbid])

/-- C1: once the book and patron lookups succeed, the borrow handler fails
with Conflict exactly when borrowedCopies plus the requested copies exceed
copies; on success it appends one new Borrowed-status transaction for the
pair with the requested due date, and the stored book record's
borrowedCopies grows by exactly the requested amount. -/
theorem C1_borrow_admission_and_effects
    (now : Time) (input : BorrowBookTransactionInput) (s : Store) (book : Book) (patron : Patron)
    (hbook : BookModel.get { id := some input.bookID, version := none } s.books = some book)
    (hpatron : PatronModel.get { id := some input.patronID, version := none } s.patrons =
      some patron) :
    (borrowBookTransactionHandler now input s = .error .conflict ↔
      book.borrowedCopies + input.copies > book.copies) ∧
    (∀ s' txn, borrowBookTransactionHandler now input s = .ok (s', txn) →
      txn.status = .borrowed ∧
      (∃ stored, s'.transactions = s.transactions ++ [stored] ∧
        stored.status = .borrowed ∧ stored.patronID = patron.id ∧
        stored.bookID = book.id ∧ stored.dueDate = input.dueDate ∧
        stored.borrowedAt = now) ∧
      (∃ book', BookModel.get { id := some input.bookID, version := none } s'.books =
          some book' ∧
        book'.borrowedCopies = book.borrowedCopies + input.copies)) := by
  obtain ⟨l₁, l₂, hl, hfail, hupd, hget⟩ := book_get_update now
    { book with borrowedCopies := book.borrowedCopies + input.copies } hbook rfl
  constructor
  · simp only [borrowBookTransactionHandler, hbook, hpatron]
    by_cases hun : isBookUnavailable book input.copies
    · rw [if_pos hun]
      simpa using isBookUnavailable_iff.mp hun
    · rw [if_neg hun]
      simp only [TransactionModel.insert]
      rw [hupd]
      simp only [reduceCtorEq, false_iff, not_lt]
      by_contra hgt
      rw [not_le] at hgt
      exact absurd (isBookUnavailable_iff.mpr hgt) (by simp [hun])
  · intro s' txn h
    revert h
    simp only [borrowBookTransactionHandler, hbook, hpatron]
    by_cases hun : isBookUnavailable book input.copies
    · rw [if_pos hun]
      intro h
      cases h
    · rw [if_neg hun]
      simp only [TransactionModel.insert]
      rw [hupd]
      intro h
      simp only [Except.ok.injEq, Prod.mk.injEq] at h
      obtain ⟨hs', htxn⟩ := h
      refine ⟨by rw [← htxn], ?_, ?_⟩
      · refine ⟨_, by rw [← hs'], rfl, rfl, rfl, rfl, rfl⟩
      · exact ⟨_, by rw [← hs']; exact hget, by simp [applyBookUpdate]⟩

/-- Borrow input of the sample pair, one copy, due in a week. -/
def binputEx : BorrowBookTransactionInput :=
  { patronID := "p1", bookID := "b1", dueDate := 7 * nsPerDay, copies := 1 }

/-- Witness for C1 at the sample store: the admission iff holds and the
borrow of one available copy succeeds with a Borrowed transaction. -/
theorem C1_witness :
    (borrowBookTransactionHandler 1 binputEx storeEx = .error .conflict ↔
      bookEx.borrowedCopies + binputEx.copies > bookEx.copies) ∧
    ∃ s' txn, borrowBookTransactionHandler 1 binputEx storeEx = .ok (s', txn) ∧
      txn.status = .borrowed := by
  have h := C1_borrow_admission_and_effects 1 binputEx storeEx bookEx patronEx rfl rfl
  obtain ⟨s', txn, hok⟩ : ∃ s' txn,
      borrowBookTransactionHandler 1 binputEx storeEx = .ok (s', txn) := ⟨_, _, rfl⟩
  exact ⟨h.1, s', txn, hok, (h.2 s' txn hok).1⟩

lemma runUpdate_isOk_of_mem {α : Type} {p : α → Bool} {f : α → α} {l : List α} {b : α}
    (hb : b ∈ l) (hpb : p b = true) : ∃ l', runUpdate p f l = .ok l' := by
  unfold runUpdate
  cases h : updateFirst p f l with
  | none =>
    have := (updateFirst_eq_none_iff p f l).mp h b hb
    rw [hpb] at this
    cases this
  | some l' => exact ⟨l', rfl⟩

/-- Preservation of the copy bounds by a successful borrow: every stored
book still satisfies 0 <= borrowedCopies <= copies. -/
lemma borrow_preserves_copyBounds {now : Time} {input : BorrowBookTransactionInput}
    {s s' : Store} {txn : Transaction} (hc : 1 ≤ input.copies)
    (hinv : ∀ b ∈ s.books, 0 ≤ b.borrowedCopies ∧ b.borrowedCopies ≤ b.copies)
    (hok : borrowBookTransactionHandler now input s = .ok (s', txn)) :
    ∀ b ∈ s'.books, 0 ≤ b.borrowedCopies ∧ b.borrowedCopies ≤ b.copies := by
  cases hbook : BookModel.get { id := some input.bookID, version := none } s.books with
  | none =>
    simp only [borrowBookTransactionHandler, hbook] at hok
    exact Except.noConfusion hok
  | some book =>
  cases hpatron : PatronModel.get { id := some input.patronID, version := none } s.patrons with
  | none =>
    simp only [borrowBookTransactionHandler, hbook, hpatron] at hok
    exact Except.noConfusion hok
  | some patron =>
  by_cases hun : isBookUnavailable book input.copies = true
  · simp only [borrowBookTransactionHandler, hbook, hpatron, hun, if_true] at hok
    exact Except.noConfusion hok
  · obtain ⟨l₁, l₂, hl, hfail, hupd, hget⟩ := book_get_update now
      { book with borrowedCopies := book.borrowedCopies + input.copies } hbook rfl
    simp only [borrowBookTransactionHandler, hbook, hpatron] at hok
    rw [if_neg hun] at hok
    simp only [TransactionModel.insert] at hok
    rw [hupd] at hok
    simp only [Except.ok.injEq, Prod.mk.injEq] at hok
    obtain ⟨hs', htxn⟩ := hok
    intro b hb
    rw [← hs'] at hb
    have hb' : b ∈ l₁ ++ applyBookUpdate now
        { book with borrowedCopies := book.borrowedCopies + input.copies } book :: l₂ := hb
    have hbookmem : book ∈ s.books := by rw [hl]; simp
    rcases List.mem_append.mp hb' with h1 | h2
    · exact hinv b (by rw [hl]; exact List.mem_append_left _ h1)
    · rcases List.mem_cons.mp h2 with rfl | h3
      · have h0 := (hinv book hbookmem).1
        have hle : book.borrowedCopies + input.copies ≤ book.copies := by
          by_contra hgt
          rw [not_le] at hgt
          exact hun (isBookUnavailable_iff.mpr hgt)
        constructor
        · show (0 : Int) ≤ book.borrowedCopies + input.copies
          linarith
        · show book.borrowedCopies + input.copies ≤ book.copies
          exact hle
      · exact hinv b (by rw [hl]; exact List.mem_append_right _ (List.mem_cons_of_mem _ h3))

/-- A successful return rewrites exactly the fetched book record,
decrementing its borrowed-copy count by the caller-supplied amount. -/
lemma return_ok_books_decomp {now : Time} {input : ReturnBookTransactionInput}
    {s : Store} {s' : Store} {book : Book}
    (hbook : BookModel.get { id := some input.bookID, version := none } s.books = some book)
    (hok : returnBookTransactionHandler now input s = .ok s') :
    ∃ l₁ l₂, s.books = l₁ ++ book :: l₂ ∧
      s'.books = l₁ ++ applyBookUpdate now
        { book with borrowedCopies := book.borrowedCopies - input.copies } book :: l₂ := by
  cases hpatron : PatronModel.get { id := some input.patronID, version := none } s.patrons with
  | none =>
    simp only [returnBookTransactionHandler, hbook, hpatron] at hok
    exact Except.noConfusion hok
  | some patron =>
  cases htxn : TransactionModel.get
      { id := none, patronID := some patron.id, bookID := some book.id,
        status := some .borrowed, version := none } s.transactions with
  | none =>
    simp only [returnBookTransactionHandler, hbook, hpatron, htxn] at hok
    exact Except.noConfusion hok
  | some transaction =>
  cases hupdtx : TransactionModel.update now
      { id := some transaction.id, patronID := none, bookID := none,
        status := none, version := none }
      { transaction with returnedAt := now, status := .returned } s.transactions with
  | error e =>
    simp only [returnBookTransactionHandler, hbook, hpatron, htxn, hupdtx] at hok
    exact Except.noConfusion hok
  | ok ltx =>
    obtain ⟨l₁, l₂, hl, hfail, hupd, hget⟩ := book_get_update now
      { book with borrowedCopies := book.borrowedCopies - input.copies } hbook rfl
    simp only [returnBookTransactionHandler, hbook, hpatron, htxn, hupdtx, hupd,
      Except.ok.injEq] at hok
    exact ⟨l₁, l₂, hl, by rw [← hok]⟩

/-- C2 amended: a successful borrow preserves 0 <= borrowedCopies <= copies
for every stored book; a successful return preserves the upper bound
borrowedCopies <= copies, and preserves the lower bound 0 <= borrowedCopies
only under the extra premise that the caller-supplied returnedCopies does
not exceed the fetched book's borrowedCopies — the code performs no
clamping, so without that premise the lower bound can be violated. -/
theorem C2_copy_bounds :
    (∀ (now : Time) (input : BorrowBookTransactionInput) (s s' : Store) (txn : Transaction),
      1 ≤ input.copies →
      (∀ b ∈ s.books, 0 ≤ b.borrowedCopies ∧ b.borrowedCopies ≤ b.copies) →
      borrowBookTransactionHandler now input s = .ok (s', txn) →
      ∀ b ∈ s'.books, 0 ≤ b.borrowedCopies ∧ b.borrowedCopies ≤ b.copies) ∧
    (∀ (now : Time) (input : ReturnBookTransactionInput) (s s' : Store),
      0 ≤ input.copies →
      (∀ b ∈ s.books, b.borrowedCopies ≤ b.copies) →
      returnBookTransactionHandler now input s = .ok s' →
      ∀ b ∈ s'.books, b.borrowedCopies ≤ b.copies) ∧
    (∀ (now : Time) (input : ReturnBookTransactionInput) (s s' : Store) (book : Book),
      BookModel.get { id := some input.bookID, version := none } s.books = some book →
      input.copies ≤ book.borrowedCopies →
      (∀ b ∈ s.books, 0 ≤ b.borrowedCopies) →
      returnBookTransactionHandler now input s = .ok s' →
      ∀ b ∈ s'.books, 0 ≤ b.borrowedCopies) := by
  refine ⟨fun now input s s' txn hc hinv hok => borrow_preserves_copyBounds hc hinv hok,
    ?_, ?_⟩
  · intro now input s s' hc hinv hok
    cases hbook : BookModel.get { id := some input.bookID, version := none } s.books with
    | none =>
      simp only [returnBookTransactionHandler, hbook] at hok
      exact Except.noConfusion hok
    | some book =>
      obtain ⟨l₁, l₂, hl, hbooks'⟩ := return_ok_books_decomp hbook hok
      intro b hb
      rw [hbooks'] at hb
      have hbookmem : book ∈ s.books := by rw [hl]; simp
      rcases List.mem_append.mp hb with h1 | h2
      · exact hinv b (by rw [hl]; exact List.mem_append_left _ h1)
      · rcases List.mem_cons.mp h2 with rfl | h3
        · show book.borrowedCopies - input.copies ≤ book.copies
          have := hinv book hbookmem
          linarith
        · exact hinv b (by rw [hl]; exact List.mem_append_right _ (List.mem_cons_of_mem _ h3))
  · intro now input s s' book hbook hcle hinv hok
    obtain ⟨l₁, l₂, hl, hbooks'⟩ := return_ok_books_decomp hbook hok
    intro b hb
    rw [hbooks'] at hb
    rcases List.mem_append.mp hb with h1 | h2
    · exact hinv b (by rw [hl]; exact List.mem_append_left _ h1)
    · rcases List.mem_cons.mp h2 with rfl | h3
      · show (0 : Int) ≤ book.borrowedCopies - input.copies
        linarith
      · exact hinv b (by rw [hl]; exact List.mem_append_right _ (List.mem_cons_of_mem _ h3))

/-- Book with a single copy, currently borrowed. -/
def bookFullEx : Book := { bookEx with copies := 1, borrowedCopies := 1 }

/-- Store whose only book is fully borrowed under one Borrowed
transaction of the sample pair. -/
def storeBorrowedEx : Store :=
  { books := [bookFullEx], patrons := [patronEx], transactions := [txnEx], nextID := 1 }

/-- C2 counterexample: returning 2 copies after borrowing 1 drives the
stored borrowedCopies to -1, below the claimed lower bound 0: the return
handler subtracts the caller-supplied count without clamping or
validating it against the transaction. -/
theorem C2_return_negative_counterexample :
    (returnBookTransactionHandler 5 { patronID := "p1", bookID := "b1", copies := 2 }
        storeBorrowedEx).toOption.map
      (fun s' => (BookModel.get { id := some "b1", version := none } s'.books).map
        Book.borrowedCopies) = some (some (-1)) ∧ (-1 : Int) < 0 := by
  constructor
  · rfl
  · norm_num

/-- Witness for C2 at the sample store: after borrowing the one available
copy, every stored book still satisfies the copy bounds. -/
theorem C2_witness :
    ∃ s' txn, borrowBookTransactionHandler 1 binputEx storeEx = .ok (s', txn) ∧
      ∀ b ∈ s'.books, 0 ≤ b.borrowedCopies ∧ b.borrowedCopies ≤ b.copies := by
  obtain ⟨s', txn, hok⟩ : ∃ s' t,
      borrowBookTransactionHandler 1 binputEx storeEx = .ok (s', t) := ⟨_, _, rfl⟩
  exact ⟨s', txn, hok,
    C2_copy_bounds.1 1 binputEx storeEx s' txn (by norm_num [binputEx]) (by decide) hok⟩

/-- C3 counterexample: with two copies in stock, the same patron borrows
the same book twice through the API handler and both calls succeed,
leaving two Borrowed-status transactions for the (patron, book) pair: the
handler's only pre-check is copy availability. -/
theorem C3_double_borrow_counterexample :
    ((borrowBookTransactionHandler 1 binputEx storeEx).toOption.bind
        (fun r => (borrowBookTransactionHandler 2 binputEx r.1).toOption)).map
      (fun r => countBorrowedPair r.1.transactions "b1" "p1") = some 2 ∧
      (1 : Nat) < 2 := by
  constructor
  · rfl
  · norm_num

/-- C3 amended: the API borrow handler enforces only the availability
check, so a pair can accumulate several Borrowed transactions while copies
remain (see the counterexample); the demo workflow borrowBook, whose
pre-check refuses to insert when any Borrowed-status transaction exists
for the book, does preserve "at most one Borrowed transaction per
(book, patron) pair". -/
theorem C3_demo_borrow_preserves_pair_uniqueness
    (now : Time) (bookID patronID : String) (dueDate : Time) (s s' : Store)
    (hinv : ∀ bid pid, countBorrowedPair s.transactions bid pid ≤ 1)
    (hok : borrowBook now bookID patronID dueDate s = .ok s') :
    ∀ bid pid, countBorrowedPair s'.transactions bid pid ≤ 1 := by
  cases hbookg : BookModel.get { id := some bookID, version := none } s.books with
  | none =>
    simp only [borrowBook, hbookg] at hok
    exact Except.noConfusion hok
  | some book =>
  cases hpatrong : PatronModel.get { id := some patronID, version := none } s.patrons with
  | none =>
    simp only [borrowBook, hbookg, hpatrong] at hok
    exact Except.noConfusion hok
  | some patron =>
  cases htx : TransactionModel.get
      { id := none, patronID := none, bookID := some bookID,
        status := some .borrowed, version := none } s.transactions with
  | some t =>
    simp only [borrowBook, hbookg, hpatrong, htx, Option.isNone_some, Bool.not_false,
      if_true] at hok
    exact Except.noConfusion hok
  | none =>
    have hnone : ∀ t ∈ s.transactions,
        ¬((bookID == t.bookID && (TransactionStatus.borrowed == t.status)) = true) := by
      intro t ht hmatch
      have hfind := List.find?_eq_none.mp htx t ht
      apply hfind
      simp only [TransactionFilter.matchesTransaction, matchOpt, Bool.true_and, Bool.and_true]
      exact hmatch
    simp only [borrowBook, hbookg, hpatrong, htx, Option.isNone_none, Bool.not_true,
      Bool.false_eq_true, if_false, TransactionModel.insert, Except.ok.injEq] at hok
    intro bid pid
    rw [← hok]
    show countBorrowedPair (s.transactions ++ [_]) bid pid ≤ 1
    unfold countBorrowedPair
    rw [List.countP_append]
    by_cases hbid : bid = bookID
    · have hzero : List.countP
          (fun t => t.bookID == bid && t.patronID == pid &&
            (t.status == TransactionStatus.borrowed)) s.transactions = 0 := by
        rw [List.countP_eq_zero]
        intro t ht hp
        simp only [Bool.and_eq_true, beq_iff_eq] at hp
        exact hnone t ht (by simp [hp.1.1, hbid, hp.2])
      rw [hzero]
      simp [List.countP_cons]
      split <;> norm_num
    · have hsing : ∀ x : Transaction, x.bookID = bookID →
          List.countP (fun t => t.bookID == bid && t.patronID == pid &&
            t.status == TransactionStatus.borrowed) [x] = 0 := by
        intro x hx
        rw [List.countP_eq_zero]
        intro t ht hp
        rw [List.mem_singleton] at ht
        subst ht
        simp only [Bool.and_eq_true, beq_iff_eq] at hp
        exact hbid (hp.1.1.symm.trans hx)
      rw [hsing _ rfl, Nat.add_zero]
      exact hinv bid pid

/-- Witness for C3 at the sample store: after one demo borrow the pair
count bound still holds everywhere. -/
theorem C3_witness :
    ∃ s', borrowBook 1 "b1" "p1" (7 * nsPerDay) storeEx = .ok s' ∧
      ∀ bid pid, countBorrowedPair s'.transactions bid pid ≤ 1 := by
  obtain ⟨s', hok⟩ : ∃ s', borrowBook 1 "b1" "p1" (7 * nsPerDay) storeEx = .ok s' := ⟨_, rfl⟩
  refine ⟨s', hok, C3_demo_borrow_preserves_pair_uniqueness 1 "b1" "p1" (7 * nsPerDay)
    storeEx s' (fun bid pid => ?_) hok⟩
  show List.countP _ [] ≤ 1
  simp

lemma matchesTransaction_pair_iff {bid pid : String} {t : Transaction} :
    TransactionFilter.matchesTransaction
      { id := none, patronID := some pid, bookID := some bid,
        status := some .borrowed, version := none } t = true ↔
      t.patronID = pid ∧ t.bookID = bid ∧ t.status = .borrowed := by
  simp only [TransactionFilter.matchesTransaction, matchOpt, Bool.true_and, Bool.and_true,
    Bool.and_eq_true, beq_iff_eq]
  constructor
  · rintro ⟨⟨h1, h2⟩, h3⟩
    exact ⟨h1.symm, h2.symm, h3.symm⟩
  · rintro ⟨h1, h2, h3⟩
    exact ⟨⟨h1.symm, h2.symm⟩, h3.symm⟩

lemma matchesTransaction_id_version_iff {tid : String} {v : Int} {t : Transaction} :
    TransactionFilter.matchesTransaction
      { id := some tid, patronID := none, bookID := none,
        status := none, version := some v } t = true ↔
      t.id = tid ∧ t.version = v := by
  simp only [TransactionFilter.matchesTransaction, matchOpt, Bool.true_and, Bool.and_true,
    Bool.and_eq_true, beq_iff_eq]
  exact and_congr eq_comm eq_comm

lemma matchesTransaction_id_iff {tid : String} {t : Transaction} :
    TransactionFilter.matchesTransaction
      { id := some tid, patronID := none, bookID := none,
        status := none, version := none } t = true ↔ t.id = tid := by
  simp only [TransactionFilter.matchesTransaction, matchOpt, Bool.and_true, beq_iff_eq]
  exact eq_comm

/-- After fetching the Borrowed transaction of a pair from a collection
with pairwise-distinct ids (the database's primary-key guarantee), the
optimistic update by that transaction's id and version rewrites exactly
the fetched record. -/
lemma txn_get_update_nodup (now : Time) (txn' : Transaction) {pid bid : String}
    {txns : List Transaction} {txn : Transaction}
    (hn : (txns.map Transaction.id).Nodup)
    (hfind : TransactionModel.get
      { id := none, patronID := some pid, bookID := some bid,
        status := some .borrowed, version := none } txns = some txn)
    (hver : txn'.version = txn.version) :
    ∃ l₁ l₂, txns = l₁ ++ txn :: l₂ ∧
      (∀ x ∈ l₁, TransactionFilter.matchesTransaction
        { id := none, patronID := some pid, bookID := some bid,
          status := some .borrowed, version := none } x = false) ∧
      (∀ x ∈ l₁, x.id ≠ txn.id) ∧ (∀ x ∈ l₂, x.id ≠ txn.id) ∧
      TransactionModel.update now
        { id := some txn.id, patronID := none, bookID := none,
          status := none, version := none } txn' txns =
        .ok (l₁ ++ applyTransactionUpdate now txn' txn :: l₂) := by
  obtain ⟨l₁, l₂, hl, hfail⟩ := find?_decomp hfind
  rw [hl, List.map_append, List.map_cons] at hn
  obtain ⟨hn₁, hn₂, hdisj⟩ := List.nodup_append.mp hn
  have hid₁ : ∀ x ∈ l₁, x.id ≠ txn.id := by
    intro x hx heq
    exact hdisj (List.mem_map_of_mem _ hx) (by rw [heq]; simp)
  have hid₂ : ∀ x ∈ l₂, x.id ≠ txn.id := by
    intro x hx heq
    exact (List.nodup_cons.mp hn₂).1 (by rw [← heq]; exact List.mem_map_of_mem _ hx)
  have hpfail : ∀ x ∈ l₁, TransactionFilter.matchesTransaction
      { id := some txn.id, patronID := none, bookID := none,
        status := none, version := some txn'.version } x = false := by
    intro x hx
    by_contra hpx
    rw [Bool.not_eq_false] at hpx
    exact hid₁ x hx (matchesTransaction_id_version_iff.mp hpx).1
  have hptxn : TransactionFilter.matchesTransaction
      { id := some txn.id, patronID := none, bookID := none,
        status := none, version := some txn'.version } txn = true :=
    matchesTransaction_id_version_iff.mpr ⟨rfl, hver.symm⟩
  refine ⟨l₁, l₂, hl, hfail, hid₁, hid₂, ?_⟩
  show runUpdate _ _ txns = _
  rw [hl]
  exact runUpdate_append _ _ l₁ txn l₂ hpfail hptxn

/-- C8: a successful return flips the fetched pair's Borrowed transaction
to Returned with returnedAt stamped by the current (non-zero) instant, and
decreases the stored book's borrowedCopies by exactly the caller-supplied
returnedCopies. -/
theorem C8_return_success_effects
    (now : Time) (input : ReturnBookTransactionInput) (s s' : Store)
    (book : Book) (patron : Patron) (txn : Transaction)
    (hnow : now ≠ 0)
    (hn : (s.transactions.map Transaction.id).Nodup)
    (hbook : BookModel.get { id := some input.bookID, version := none } s.books = some book)
    (hpatron : PatronModel.get { id := some input.patronID, version := none } s.patrons =
      some patron)
    (htxn : TransactionModel.get
      { id := none, patronID := some patron.id, bookID := some book.id,
        status := some .borrowed, version := none } s.transactions = some txn)
    (hok : returnBookTransactionHandler now input s = .ok s') :
    (∃ txn', TransactionModel.get
        { id := some txn.id, patronID := none, bookID := none,
          status := none, version := none } s'.transactions = some txn' ∧
      txn'.status = .returned ∧ txn'.returnedAt = now ∧ txn'.returnedAt ≠ 0) ∧
    (∃ book', BookModel.get { id := some input.bookID, version := none } s'.books =
        some book' ∧
      book'.borrowedCopies = book.borrowedCopies - input.copies) := by
  obtain ⟨l₁, l₂, hlt, hpairfail, hid₁, hid₂, hupdtx⟩ :=
    txn_get_update_nodup now
      { txn with returnedAt := now, status := .returned } hn htxn rfl
  obtain ⟨m₁, m₂, hlb, hbfail, hupdb, hgetb⟩ := book_get_update now
    { book with borrowedCopies := book.borrowedCopies - input.copies } hbook rfl
  simp only [returnBookTransactionHandler, hbook, hpatron, htxn, hupdtx, hupdb,
    Except.ok.injEq] at hok
  subst hok
  constructor
  · refine ⟨applyTransactionUpdate now { txn with returnedAt := now, status := .returned } txn,
      ?_, rfl, rfl, hnow⟩
    show List.find? _ (l₁ ++ _ :: l₂) = _
    apply find?_append_cons
    · intro x hx
      by_contra hpx
      rw [Bool.not_eq_false] at hpx
      exact hid₁ x hx (matchesTransaction_id_iff.mp hpx)
    · exact matchesTransaction_id_iff.mpr rfl
  · exact ⟨_, hgetb, by simp [applyBookUpdate]⟩

/-- Return input of the sample pair, one copy. -/
def rinputEx : ReturnBookTransactionInput := { patronID := "p1", bookID := "b1", copies := 1 }

/-- Witness for C8 at the fully-borrowed sample store: returning the one
borrowed copy flips the transaction to Returned with returnedAt 5 and
brings borrowedCopies back to 0. -/
theorem C8_witness :
    ∃ s', returnBookTransactionHandler 5 rinputEx storeBorrowedEx = .ok s' ∧
      (∃ txn', TransactionModel.get
          { id := some "t1", patronID := none, bookID := none,
            status := none, version := none } s'.transactions = some txn' ∧
        txn'.status = .returned ∧ txn'.returnedAt = 5) ∧
      (∃ book', BookModel.get { id := some "b1", version := none } s'.books = some book' ∧
        book'.borrowedCopies = 0) := by
  obtain ⟨s', hok⟩ : ∃ s',
      returnBookTransactionHandler 5 rinputEx storeBorrowedEx = .ok s' := ⟨_, rfl⟩
  have h := C8_return_success_effects 5 rinputEx storeBorrowedEx s' bookFullEx patronEx txnEx
    (by norm_num) (by decide) rfl rfl rfl hok
  obtain ⟨⟨txn', hgt, hst, hrt, _⟩, ⟨book', hgb, hbc⟩⟩ := h
  exact ⟨s', hok, ⟨txn', hgt, hst, hrt⟩, ⟨book', hgb, by rw [hbc]; decide⟩⟩

/-- C7 counterexample: with two copies in stock, borrow twice as the same
patron, then return once; a second Return then silently succeeds (it
consumes the second Borrowed transaction) instead of failing with
NotFound, because the borrow handler had allowed two Borrowed
transactions for the pair. -/
theorem C7_second_return_succeeds_counterexample :
    ((((borrowBookTransactionHandler 1 binputEx storeEx).toOption.map Prod.fst).bind
        (fun s => (borrowBookTransactionHandler 2 binputEx s).toOption.map Prod.fst)).bind
      (fun s => (returnBookTransactionHandler 3 rinputEx s).toOption)).map
      (fun s => match returnBookTransactionHandler 4 rinputEx s with
        | .ok _ => true
        | .error _ => false) = some true := by
  rfl

/-- C7 amended: when at most one Borrowed transaction exists for the pair
(and transaction ids are pairwise distinct, the database's primary-key
guarantee), a second Return after a successful Return fails with NotFound
before any write, because the first Return consumed the only Borrowed
transaction; when the borrow handler has let several Borrowed
transactions accumulate for the pair, a second Return instead succeeds
and consumes another one (see the counterexample). -/
theorem C7_second_return_not_found
    (now₁ now₂ : Time) (input : ReturnBookTransactionInput) (s s₁ : Store)
    (hn : (s.transactions.map Transaction.id).Nodup)
    (hcount : countBorrowedPair s.transactions input.bookID input.patronID ≤ 1)
    (hok : returnBookTransactionHandler now₁ input s = .ok s₁) :
    returnBookTransactionHandler now₂ input s₁ = .error .transactionNotFound := by
  cases hbook : BookModel.get { id := some input.bookID, version := none } s.books with
  | none =>
    simp only [returnBookTransactionHandler, hbook] at hok
    exact Except.noConfusion hok
  | some book =>
  cases hpatron : PatronModel.get { id := some input.patronID, version := none } s.patrons with
  | none =>
    simp only [returnBookTransactionHandler, hbook, hpatron] at hok
    exact Except.noConfusion hok
  | some patron =>
  cases htxn : TransactionModel.get
      { id := none, patronID := some patron.id, bookID := some book.id,
        status := some .borrowed, version := none } s.transactions with
  | none =>
    simp only [returnBookTransactionHandler, hbook, hpatron, htxn] at hok
    exact Except.noConfusion hok
  | some txn =>
  obtain ⟨l₁, l₂, hlt, hpairfail, hid₁, hid₂, hupdtx⟩ :=
    txn_get_update_nodup now₁
      { txn with returnedAt := now₁, status := .returned } hn htxn rfl
  obtain ⟨m₁, m₂, hlb, hbfail, hupdb, hgetb⟩ := book_get_update now₁
    { book with borrowedCopies := book.borrowedCopies - input.copies } hbook rfl
  simp only [returnBookTransactionHandler, hbook, hpatron, htxn, hupdtx, hupdb,
    Except.ok.injEq] at hok
  subst hok
  have hbid : book.id = input.bookID := matchesBook_id_iff.mp (List.find?_some hbook)
  have hpid : patron.id = input.patronID := matchesPatron_id_iff.mp (List.find?_some hpatron)
  obtain ⟨hp1, hp2, hp3⟩ := matchesTransaction_pair_iff.mp (List.find?_some htxn)
  have hptxn : (txn.bookID == input.bookID && txn.patronID == input.patronID &&
      (txn.status == TransactionStatus.borrowed)) = true := by
    simp only [Bool.and_eq_true, beq_iff_eq]
    exact ⟨⟨by rw [hp2, hbid], by rw [hp1, hpid]⟩, hp3⟩
  have hcount' : List.countP (fun t => t.bookID == input.bookID &&
      t.patronID == input.patronID && (t.status == TransactionStatus.borrowed))
      l₂ = 0 := by
    unfold countBorrowedPair at hcount
    rw [hlt, List.countP_append, List.countP_cons, hptxn, if_pos rfl] at hcount
    have h1 : List.countP _ l₂ + 1 ≤ 1 := le_trans (Nat.le_add_left _ _) hcount
    exact Nat.le_zero.mp (Nat.le_of_succ_le_succ h1)
  have hfind₂ : TransactionModel.get
      { id := none, patronID := some patron.id, bookID := some book.id,
        status := some .borrowed, version := none }
      (l₁ ++ applyTransactionUpdate now₁
        { txn with returnedAt := now₁, status := .returned } txn :: l₂) = none := by
    show List.find? _ _ = none
    rw [List.find?_eq_none]
    intro x hx
    rcases List.mem_append.mp hx with h1 | h2
    · rw [hpairfail x h1]
      simp
    · rcases List.mem_cons.mp h2 with rfl | h3
      · intro hmatch
        have hst := (matchesTransaction_pair_iff.mp hmatch).2.2
        simp [applyTransactionUpdate] at hst
      · intro hmatch
        obtain ⟨hq1, hq2, hq3⟩ := matchesTransaction_pair_iff.mp hmatch
        refine absurd ?_ (List.countP_eq_zero.mp hcount' x h3)
        simp only [Bool.and_eq_true, beq_iff_eq]
        exact ⟨⟨by rw [hq2, hbid], by rw [hq1, hpid]⟩, hq3⟩
  have hid_applied : (applyBookUpdate now₁
      { book with borrowedCopies := book.borrowedCopies - input.copies } book).id =
      book.id := rfl
  simp only [returnBookTransactionHandler, hgetb, hpatron, hid_applied, hfind₂]

/-- Witness for C7 at the fully-borrowed sample store: the first return
succeeds and the second fails with NotFound. -/
theorem C7_witness :
    ∃ s₁, returnBookTransactionHandler 5 rinputEx storeBorrowedEx = .ok s₁ ∧
      returnBookTransactionHandler 6 rinputEx s₁ = .error .transactionNotFound := by
  obtain ⟨s₁, hok⟩ : ∃ s₁,
      returnBookTransactionHandler 5 rinputEx storeBorrowedEx = .ok s₁ := ⟨_, rfl⟩
  exact ⟨s₁, hok, C7_second_return_not_found 5 6 rinputEx storeBorrowedEx s₁
    (by decide) (by decide) hok⟩

end Library
